import Mathlib

/-!
Verification development for the Trombinoscope firmware
(`src/trombinoscope/trombinoscope.ino`).

The sketch drives a NeoPixel strip from a single push button: an idle
rainbow, a press-counting window, a short random animation, and a white
"show" frame lighting K uniquely selected person LEDs.

Shallow embedding conventions:
* `uint32` timestamp arithmetic is modelled on `Nat` with the wrapping
  difference `sub32 a b = (a - b) mod 2^32`; timestamps are stored as the
  raw `Nat` clock values, and every comparison the C code performs on a
  `uint32` difference goes through `sub32`, so the embedding agrees with
  the 32-bit machine arithmetic for all inputs.
* The Arduino `random(0, N)` stream is an explicit parameter
  `stream : Nat → Nat`, reduced `mod PEOPLE_NB` at each draw; the
  unbounded `while` loop of `pickUniqueRandom` is given explicit fuel and
  returns `Option` (`none` = fuel exhausted, i.e. the loop is still
  running).
* Pixel writes of the idle/animating renderers are external display side
  effects; only the controller-visible fields they mutate
  (`rainbowOffset`, `lastIdleStep`, `lastAnimStep`) are kept.  The show
  frame (`renderShowSelection`) is modelled in full as a function from
  physical LED index to an RGB triple.
-/

namespace Trombinoscope

/-- Total number of LEDs on the strip (`NUM_LEDS`). -/
def NUM_LEDS : Nat := 30

/-- Indices on the strip representing the people (`UsedLEDs[]`). -/
def UsedLEDs : List Nat := [0, 2, 4, 6, 8, 10, 12, 14, 16, 18, 20]

/-- Number of people (`PEOPLE_NB = sizeof(UsedLEDs)/sizeof(UsedLEDs[0])`). -/
def PEOPLE_NB : Nat := UsedLEDs.length

/-- Button debounce time in ms (`DEBOUNCE_MS`). -/
def DEBOUNCE_MS : Nat := 35

/-- Long press threshold in ms (`LONG_PRESS_MS`). -/
def LONG_PRESS_MS : Nat := 800

/-- Sliding count window in ms (`COUNT_WINDOW_MS`). -/
def COUNT_WINDOW_MS : Nat := 900

/-- Idle rainbow update rate in ms (`IDLE_STEP_MS`). -/
def IDLE_STEP_MS : Nat := 20

/-- Animation update rate in ms (`ANIM_STEP_MS`). -/
def ANIM_STEP_MS : Nat := 55

/-- Animation duration in ms (`ANIM_MS`). -/
def ANIM_MS : Nat := 1800

/-- How long the selection is displayed, in ms (`HOLD_MS`). -/
def HOLD_MS : Nat := 10000

/-- Hue spacing between people in idle (`RAINBOW_SPACING`). -/
def RAINBOW_SPACING : Nat := 20

/-- Safety cap on the requested count (`MAX_REQUEST = PEOPLE_NB`). -/
def MAX_REQUEST : Nat := PEOPLE_NB

/-- Capacity of the `selectedIdx` array (`MAX_SEL`). -/
def MAX_SEL : Nat := 32

/-- Modulus of `uint32` arithmetic. -/
def UINT32_MOD : Nat := 4294967296

/-- Threshold below which a `uint32` reinterpreted as an `int32` is `≥ 0`. -/
def INT32_HALF : Nat := 2147483648

/-- Wrapping `uint32` subtraction: the canonical representative of
`a - b` modulo `2^32`, as computed by C on `uint32_t` operands. -/
def sub32 (a b : Nat) : Nat :=
  (a % UINT32_MOD + (UINT32_MOD - b % UINT32_MOD)) % UINT32_MOD

/-- Color triple `(r, g, b)`, each channel in `0..255`. -/
abbrev Color := Nat × Nat × Nat

/-- The `colorWheel` helper.  The `uint8_t` parameter is modelled by
reducing the argument `mod 256`; all channel expressions stay within
`0..255`, so `strip.Color`'s `uint8_t` packing performs no truncation. -/
def colorWheel (pos0 : Nat) : Color :=
  let pos := 255 - pos0 % 256
  if pos < 85 then
    (255 - pos * 3, 0, pos * 3)
  else if pos < 170 then
    let p := pos - 85
    (0, p * 3, 255 - p * 3)
  else
    let p := pos - 170
    (p * 3, 255 - p * 3, 0)

/-- Modelled from the spec's words for the hue-wheel claim (C3), for
comparison against `colorWheel`: input positions 0–84 interpolate red
toward blue, 85–169 blue toward green, 170–255 green toward red. -/
def specColorWheel (pos0 : Nat) : Color :=
  let p := pos0 % 256
  if p < 85 then
    (255 - p * 3, 0, p * 3)
  else if p < 170 then
    let q := p - 85
    (0, q * 3, 255 - q * 3)
  else
    let q := p - 170
    (q * 3, 255 - q * 3, 0)

/-- The `contains` helper: true iff `val` is among the first elements of
the accumulating output array (modelled as the list `arr`). -/
def contains : List Nat → Nat → Bool
  | [], _ => false
  | a :: rest, val => if a = val then true else contains rest val

/-- The `while (count < k)` loop body of `pickUniqueRandom`, with explicit
fuel.  `i` is the index of the next draw from the random stream, `acc`
the already accepted values (`out[0..count-1]`).  `none` means the fuel
ran out with the loop still running. -/
def pickLoop (stream : Nat → Nat) (k : Nat) :
    Nat → Nat → List Nat → Option (List Nat)
  | 0, _, acc => if k ≤ acc.length then some acc else none
  | fuel + 1, i, acc =>
    if k ≤ acc.length then some acc
    else
      let r := stream i % PEOPLE_NB
      if contains acc r then pickLoop stream k fuel (i + 1) acc
      else pickLoop stream k fuel (i + 1) (acc ++ [r])

/-- `pickUniqueRandom(k, out)`: draw `k` unique random indices in
`[0, PEOPLE_NB)`. -/
def pickUniqueRandom (stream : Nat → Nat) (k : Nat) (fuel : Nat) :
    Option (List Nat) :=
  pickLoop stream k fuel 0 []

/-- The caller-side clamp of the requested count before selection
(`loop`, `ANIMATING` case): first to `PEOPLE_NB`, then to `MAX_SEL`. -/
def clampSelCount (req : Nat) : Nat :=
  let c := if req > PEOPLE_NB then PEOPLE_NB else req
  if c > MAX_SEL then MAX_SEL else c

/-- The selection operation as the controller invokes it: clamp the
request, then run `pickUniqueRandom`. -/
def selectOp (stream : Nat → Nat) (req fuel : Nat) : Option (List Nat) :=
  pickUniqueRandom stream (clampSelCount req) fuel

/-- A random stream is fair when every residue in `[0, PEOPLE_NB)` keeps
occurring arbitrarily late.  A uniform random source has this property
with probability 1; it is the hypothesis under which the rejection
sampling terminates. -/
def FairStream (stream : Nat → Nat) : Prop :=
  ∀ v, v < PEOPLE_NB → ∀ n, ∃ m, n ≤ m ∧ stream m % PEOPLE_NB = v

/-- Mutable state of the button classifier (`lastButtonLevel`,
`lastButtonEdge`, `longPressArmed`, `buttonPressMs`).  `true` is the
`HIGH` (released) level of the `INPUT_PULLUP` wiring. -/
structure BState where
  lastButtonLevel : Bool
  lastButtonEdge : Nat
  longPressArmed : Bool
  buttonPressMs : Nat
deriving DecidableEq, Repr

/-- Button state at power-up: level `HIGH`, timers zero. -/
def initBState : BState :=
  { lastButtonLevel := true, lastButtonEdge := 0,
    longPressArmed := false, buttonPressMs := 0 }

/-- `pollButton()`: classify one sample.  `now` is `nowMs`, `level` the
single `digitalRead` sample of the tick (the source reads the pin twice
in one call; one scheduler tick sees one stable level).  Returns the
event (`0` none, `1` short, `2` long) and the updated state. -/
def pollButton (s : BState) (now : Nat) (level : Bool) : Nat × BState :=
  let es :=
    if level ≠ s.lastButtonLevel then
      if sub32 now s.lastButtonEdge > DEBOUNCE_MS then
        if level = false then
          (0, { lastButtonLevel := level, lastButtonEdge := now,
                longPressArmed := true, buttonPressMs := now })
        else
          if s.longPressArmed then
            ((if sub32 now s.buttonPressMs ≥ LONG_PRESS_MS then 2 else 1),
             { s with lastButtonLevel := level, lastButtonEdge := now,
                      longPressArmed := false })
          else
            (0, { s with lastButtonLevel := level, lastButtonEdge := now })
      else (0, s)
    else (0, s)
  if es.2.longPressArmed ∧ sub32 now es.2.buttonPressMs ≥ LONG_PRESS_MS ∧
      level = false then
    (2, { es.2 with longPressArmed := false })
  else es

/-- Run `pollButton` over a list of `(time, level)` samples, collecting
the emitted events. -/
def pollRun (s : BState) : List (Nat × Bool) → List Nat × BState
  | [] => ([], s)
  | sample :: rest =>
    let r := pollButton s sample.1 sample.2
    let rr := pollRun r.2 rest
    (r.1 :: rr.1, rr.2)

/-- The controller modes (`enum class State`). -/
inductive MState where
  | IDLE
  | COUNTING
  | ANIMATING
  | SHOW
deriving DecidableEq, Repr

/-- Controller-owned mutable state of the sketch: the mode, the timing
registers, the press counter and window, and the current selection
(`selectedIdx[0..selectedCount-1]` as a list). -/
structure Ctrl where
  state : MState
  stateEnterMs : Nat
  requestedCount : Nat
  countWindowEnds : Nat
  selected : List Nat
  rainbowOffset : Nat
  lastIdleStep : Nat
  lastAnimStep : Nat
deriving DecidableEq, Repr

/-- Controller state after `setup()`: `enterState(State::IDLE)` at time 0
with all globals zero-initialized and no selection. -/
def initCtrl : Ctrl :=
  { state := MState.IDLE, stateEnterMs := 0, requestedCount := 0,
    countWindowEnds := 0, selected := [], rainbowOffset := 0,
    lastIdleStep := 0, lastAnimStep := 0 }

/-- `renderIdle()`: controller-visible effect only (the pixel writes are
external).  Advances the `uint8_t` rainbow offset and the idle render
clock when `IDLE_STEP_MS` have elapsed. -/
def renderIdleStep (c : Ctrl) (now : Nat) : Ctrl :=
  if sub32 now c.lastIdleStep ≥ IDLE_STEP_MS then
    { c with rainbowOffset := (c.rainbowOffset + 1) % 256,
             lastIdleStep := now }
  else c

/-- `renderAnimating()`: controller-visible effect only (the random pixel
colors are external display output). -/
def renderAnimStep (c : Ctrl) (now : Nat) : Ctrl :=
  if sub32 now c.lastAnimStep ≥ ANIM_STEP_MS then
    { c with lastAnimStep := now }
  else c

/-- `enterState(s)`: switch mode, stamp the entry time, and run the
per-mode entry action (`SHOW`'s `renderShowSelection()` is a pure display
side effect, modelled separately by `renderShowSelection`). -/
def enterState (c : Ctrl) (s : MState) (now : Nat) : Ctrl :=
  let c1 := { c with state := s, stateEnterMs := now }
  match s with
  | MState.IDLE => c1
  | MState.COUNTING => { c1 with countWindowEnds := now + COUNT_WINDOW_MS }
  | MState.ANIMATING => { c1 with lastAnimStep := 0 }
  | MState.SHOW => c1

/-- The `switch (state)` body of `loop()`, given the classified button
event `btn` for this tick.  The `ANIMATING` expiry branch runs the
rejection sampling with the supplied stream and fuel; `none` means the
sampling loop was still running when the fuel ran out. -/
def ctrlStep (stream : Nat → Nat) (fuel : Nat) (c : Ctrl) (btn now : Nat) :
    Option Ctrl :=
  match c.state with
  | MState.IDLE =>
    let c1 := renderIdleStep c now
    if btn = 2 then some c1
    else if btn = 1 then
      some (enterState { c1 with requestedCount := 1 } MState.COUNTING now)
    else some c1
  | MState.COUNTING =>
    let c1 := renderIdleStep c now
    if btn = 2 then
      some (enterState { c1 with requestedCount := 0 } MState.IDLE now)
    else
      let c2 :=
        if btn = 1 then
          { c1 with
            requestedCount :=
              if c1.requestedCount < MAX_REQUEST then c1.requestedCount + 1
              else c1.requestedCount,
            countWindowEnds := now + COUNT_WINDOW_MS }
        else c1
      if sub32 now c2.countWindowEnds < INT32_HALF then
        let rc1 := if c2.requestedCount = 0 then 1 else c2.requestedCount
        let rc2 := if rc1 > PEOPLE_NB then PEOPLE_NB else rc1
        some (enterState { c2 with requestedCount := rc2 } MState.ANIMATING now)
      else some c2
  | MState.ANIMATING =>
    let c1 := renderAnimStep c now
    if btn = 2 then some (enterState c1 MState.IDLE now)
    else if sub32 now c1.stateEnterMs ≥ ANIM_MS then
      match pickUniqueRandom stream (clampSelCount c1.requestedCount) fuel with
      | none => none
      | some sel => some (enterState { c1 with selected := sel } MState.SHOW now)
    else some c1
  | MState.SHOW =>
    if btn = 2 then some (enterState c MState.IDLE now)
    else if sub32 now c.stateEnterMs ≥ HOLD_MS then
      some (enterState c MState.IDLE now)
    else some c

/-- Run the controller over a list of `(btn, now)` ticks. -/
def ctrlRun (stream : Nat → Nat) (fuel : Nat) :
    Ctrl → List (Nat × Nat) → Option Ctrl
  | c, [] => some c
  | c, t :: rest =>
    (ctrlStep stream fuel c t.1 t.2).bind fun c' =>
      ctrlRun stream fuel c' rest

/-- One full `loop()` iteration: classify the raw sample, then dispatch
to the mode handler. -/
def loopTick (stream : Nat → Nat) (fuel : Nat) (b : BState) (c : Ctrl)
    (now : Nat) (level : Bool) : Option (BState × Ctrl) :=
  let pb := pollButton b now level
  (ctrlStep stream fuel c pb.1 now).map fun c' => (pb.2, c')

/-- Reachable controller states: `initCtrl` plus everything a tick can
produce from a reachable state. -/
inductive Reachable : Ctrl → Prop where
  | init : Reachable initCtrl
  | step (stream : Nat → Nat) (fuel : Nat) (c c' : Ctrl) (btn now : Nat) :
      Reachable c → ctrlStep stream fuel c btn now = some c' → Reachable c'

/-- One pixel frame of the strip, physical LED index to color. -/
abbrev Frame := Nat → Color

/-- `strip.clear()`: every pixel off. -/
def stripClear : Frame := fun _ => (0, 0, 0)

/-- `strip.setPixelColor(led, col)`: the Adafruit driver ignores writes
at or beyond `NUM_LEDS`. -/
def setPixelColor (pix : Frame) (led : Nat) (col : Color) : Frame :=
  fun l => if l = led ∧ led < NUM_LEDS then col else pix l

/-- `renderShowSelection()`: clear the strip, then set the mapped LED of
every selected index to white.  `sel` is the `selectedIdx` list. -/
def renderShowSelection (sel : List Nat) : Frame :=
  sel.foldl
    (fun pix idx => setPixelColor pix (UsedLEDs.getD idx 0) (255, 255, 255))
    stripClear

/-- Concrete `ANIMATING` controller state used to exhibit the behavior of
a long press outside `COUNTING` (requested count 3, no selection yet). -/
def animDemo : Ctrl :=
  { state := MState.ANIMATING, stateEnterMs := 0, requestedCount := 3,
    countWindowEnds := 0, selected := [], rainbowOffset := 0,
    lastIdleStep := 0, lastAnimStep := 0 }

/-- Concrete `COUNTING` controller state reached from `initCtrl` by one
short press at time 5. -/
def countingDemo : Ctrl :=
  { state := MState.COUNTING, stateEnterMs := 5, requestedCount := 1,
    countWindowEnds := 905, selected := [], rainbowOffset := 0,
    lastIdleStep := 0, lastAnimStep := 0 }

/-- First state of a concrete run from `initCtrl`: short press at
time 100. -/
def countingDemoA : Ctrl :=
  { state := MState.COUNTING, stateEnterMs := 100, requestedCount := 1,
    countWindowEnds := 1000, selected := [], rainbowOffset := 1,
    lastIdleStep := 100, lastAnimStep := 0 }

/-- Second state of the run: short press at time 200. -/
def countingDemoB : Ctrl :=
  { state := MState.COUNTING, stateEnterMs := 100, requestedCount := 2,
    countWindowEnds := 1100, selected := [], rainbowOffset := 2,
    lastIdleStep := 200, lastAnimStep := 0 }

/-- Third state of the run: short press at time 300. -/
def countingDemoC : Ctrl :=
  { state := MState.COUNTING, stateEnterMs := 100, requestedCount := 3,
    countWindowEnds := 1200, selected := [], rainbowOffset := 3,
    lastIdleStep := 300, lastAnimStep := 0 }

/-- Reachable `ANIMATING` state: window expiry at time 1301 after the
three presses, with `requestedCount = 3`. -/
def animReached : Ctrl :=
  { state := MState.ANIMATING, stateEnterMs := 1301, requestedCount := 3,
    countWindowEnds := 1200, selected := [], rainbowOffset := 4,
    lastIdleStep := 1301, lastAnimStep := 0 }

/-- Result of a LongPress tick at time 2000 from `animReached`: back in
`IDLE` but with `requestedCount` still 3. -/
def idleAfterDemo : Ctrl :=
  { state := MState.IDLE, stateEnterMs := 2000, requestedCount := 3,
    countWindowEnds := 1200, selected := [], rainbowOffset := 4,
    lastIdleStep := 1301, lastAnimStep := 2000 }

/-! ### Basic facts -/

theorem PEOPLE_NB_eq : PEOPLE_NB = 11 := rfl

theorem contains_iff (l : List Nat) (v : Nat) : contains l v = true ↔ v ∈ l := by
  induction l with
  | nil => simp [contains]
  | cons a rest ih =>
    simp only [contains]
    by_cases h : a = v
    · simp [h]
    · simp only [if_neg h, ih, List.mem_cons]
      constructor
      · exact Or.inr
      · rintro (rfl | hm)
        · exact absurd rfl h
        · exact hm

/-! ### Hue wheel (C3) -/

/-- C3 counterexample: at hue position 1 the code's wheel yields
`(252, 3, 0)` — the green channel rises while blue stays 0 — whereas the
claimed red-toward-blue mapping of segment 0–84 (`specColorWheel`)
demands `(252, 0, 3)`.  The claim is false at input 1. -/
theorem colorWheel_differs_from_spec : colorWheel 1 ≠ specColorWheel 1 := by
  decide

set_option maxRecDepth 4000 in
/-- C3 (amended): `colorWheel` first inverts its input (`pos := 255 −
pos`), so in terms of the input position the three segments run the
opposite way around the wheel: 0–85 interpolates red toward green,
86–170 green toward blue, and 171–255 blue toward red, closing the
wheel. -/
theorem colorWheel_segments (p : Nat) (hp : p < 256) :
    (p ≤ 85 → colorWheel p = (255 - 3 * p, 3 * p, 0)) ∧
    (86 ≤ p → p ≤ 170 → colorWheel p = (0, 3 * (170 - p), 255 - 3 * (170 - p))) ∧
    (171 ≤ p → colorWheel p = (255 - 3 * (255 - p), 0, 3 * (255 - p))) := by
  revert hp
  revert p
  decide

/-- Witness for `colorWheel_segments` at position 10. -/
theorem colorWheel_segments_witness :
    (10 ≤ 85 → colorWheel 10 = (255 - 3 * 10, 3 * 10, 0)) ∧
    (86 ≤ 10 → 10 ≤ 170 → colorWheel 10 = (0, 3 * (170 - 10), 255 - 3 * (170 - 10))) ∧
    (171 ≤ 10 → colorWheel 10 = (255 - 3 * (255 - 10), 0, 3 * (255 - 10))) :=
  colorWheel_segments 10 (by decide)

/-! ### Unique random selection (C2, C5, C7) -/

theorem pickLoop_sound (stream : Nat → Nat) (k : Nat) :
    ∀ (fuel i : Nat) (acc out : List Nat), acc.Nodup →
      (∀ x ∈ acc, x < PEOPLE_NB) → acc.length ≤ k →
      pickLoop stream k fuel i acc = some out →
      out.length = k ∧ out.Nodup ∧ ∀ x ∈ out, x < PEOPLE_NB := by
  intro fuel
  induction fuel with
  | zero =>
    intro i acc out hnd hb hle h
    simp only [pickLoop] at h
    split at h
    · cases h
      exact ⟨Nat.le_antisymm hle (by assumption), hnd, hb⟩
    · cases h
  | succ f ih =>
    intro i acc out hnd hb hle h
    simp only [pickLoop] at h
    split at h
    · cases h
      exact ⟨Nat.le_antisymm hle (by assumption), hnd, hb⟩
    · rename_i hk
      split at h
      · exact ih (i + 1) acc out hnd hb hle h
      · rename_i hcon
        have hrP : stream i % PEOPLE_NB < PEOPLE_NB :=
          Nat.mod_lt _ (by decide)
        have hnotin : stream i % PEOPLE_NB ∉ acc := fun hm =>
          hcon ((contains_iff acc _).mpr hm)
        refine ih (i + 1) (acc ++ [stream i % PEOPLE_NB]) out ?_ ?_ ?_ h
        · simp only [List.nodup_append, List.nodup_cons, List.not_mem_nil,
            not_false_iff, List.nodup_nil, and_true, true_and]
          refine ⟨hnd, fun a ha hmem => ?_⟩
          rw [List.mem_singleton] at hmem
          exact hnotin (hmem ▸ ha)
        · intro x hx
          rcases List.mem_append.mp hx with hx1 | hx2
          · exact hb x hx1
          · rw [List.mem_singleton.mp hx2]
            exact hrP
        · simp only [List.length_append, List.length_singleton]
          omega

/-- C2: whenever the rejection-sampling selection returns with a request
of `k` people (`1 ≤ k ≤ PEOPLE_NB`), its result holds exactly `k`
pairwise-distinct indices, each in `[0, PEOPLE_NB)` — for every random
stream and any fuel. -/
theorem pickUniqueRandom_k_distinct (stream : Nat → Nat) (k fuel : Nat)
    (out : List Nat) (hk1 : 1 ≤ k) (hk2 : k ≤ PEOPLE_NB)
    (hret : pickUniqueRandom stream k fuel = some out) :
    out.length = k ∧ out.Nodup ∧ ∀ x ∈ out, x < PEOPLE_NB :=
  pickLoop_sound stream k fuel 0 [] out (by simp) (by simp) (by simp) hret

/-- Witness for `pickUniqueRandom_k_distinct`: the identity stream with
`k = 3` returns `[0, 1, 2]`. -/
theorem pickUniqueRandom_k_distinct_witness :
    ([0, 1, 2] : List Nat).length = 3 ∧ ([0, 1, 2] : List Nat).Nodup ∧
      ∀ x ∈ ([0, 1, 2] : List Nat), x < PEOPLE_NB :=
  pickUniqueRandom_k_distinct (fun i => i) 3 10 [0, 1, 2]
    (by decide) (by decide) (by decide)

/-- C5: requesting more than the population clamps to the full
population: the selection operation the controller invokes behaves
exactly as a request for `PEOPLE_NB`. -/
theorem selectOp_clamps_to_population (stream : Nat → Nat) (k fuel : Nat)
    (hk : k > PEOPLE_NB) :
    selectOp stream k fuel = selectOp stream PEOPLE_NB fuel := by
  have h1 : clampSelCount k = PEOPLE_NB := by
    unfold clampSelCount
    rw [if_pos hk]
    decide
  have h2 : clampSelCount PEOPLE_NB = PEOPLE_NB := by decide
  unfold selectOp
  rw [h1, h2]

/-- Witness for `selectOp_clamps_to_population` with `k = 12`. -/
theorem selectOp_clamps_to_population_witness :
    selectOp (fun _ => 0) 12 5 = selectOp (fun _ => 0) PEOPLE_NB 5 :=
  selectOp_clamps_to_population (fun _ => 0) 12 5 (by decide)

theorem exists_missing (acc : List Nat) (hnd : acc.Nodup)
    (hlen : acc.length < PEOPLE_NB) :
    ∃ v, v < PEOPLE_NB ∧ v ∉ acc := by
  by_contra hcon
  push_neg at hcon
  have hsub : Finset.range PEOPLE_NB ⊆ acc.toFinset := by
    intro v hv
    simp only [List.mem_toFinset]
    exact hcon v (Finset.mem_range.mp hv)
  have hcard := Finset.card_le_card hsub
  rw [Finset.card_range, List.toFinset_card_of_nodup hnd] at hcard
  omega

theorem pickLoop_accept (stream : Nat → Nat) (k d : Nat)
    (H : ∀ (acc : List Nat) (i : Nat), acc.Nodup →
        (∀ x ∈ acc, x < PEOPLE_NB) → k ≤ acc.length + d →
        ∃ fuel out, pickLoop stream k fuel i acc = some out)
    (i : Nat) (acc : List Nat) (hnd : acc.Nodup)
    (hb : ∀ x ∈ acc, x < PEOPLE_NB) (hk : ¬ k ≤ acc.length)
    (hlen : k ≤ acc.length + d + 1)
    (hnotin : stream i % PEOPLE_NB ∉ acc) :
    ∃ fuel out, pickLoop stream k fuel i acc = some out := by
  have hrP : stream i % PEOPLE_NB < PEOPLE_NB := Nat.mod_lt _ (by decide)
  have hnd' : (acc ++ [stream i % PEOPLE_NB]).Nodup := by
    simp only [List.nodup_append, List.nodup_cons, List.not_mem_nil,
      not_false_iff, List.nodup_nil, and_true, true_and]
    refine ⟨hnd, fun a ha hmem => ?_⟩
    rw [List.mem_singleton] at hmem
    exact hnotin (hmem ▸ ha)
  have hb' : ∀ x ∈ acc ++ [stream i % PEOPLE_NB], x < PEOPLE_NB := by
    intro x hx
    rcases List.mem_append.mp hx with hx1 | hx2
    · exact hb x hx1
    · rw [List.mem_singleton.mp hx2]
      exact hrP
  have hlen' : k ≤ (acc ++ [stream i % PEOPLE_NB]).length + d := by
    simp only [List.length_append, List.length_singleton]
    omega
  obtain ⟨f, out, hout⟩ := H (acc ++ [stream i % PEOPLE_NB]) (i + 1) hnd' hb' hlen'
  refine ⟨f + 1, out, ?_⟩
  simp only [pickLoop, if_neg hk]
  rw [if_neg (fun hc => hnotin ((contains_iff acc _).mp hc))]
  exact hout

theorem pickLoop_progress (stream : Nat → Nat) (k d : Nat)
    (H : ∀ (acc : List Nat) (i : Nat), acc.Nodup →
        (∀ x ∈ acc, x < PEOPLE_NB) → k ≤ acc.length + d →
        ∃ fuel out, pickLoop stream k fuel i acc = some out) :
    ∀ (j i : Nat) (acc : List Nat), acc.Nodup →
      (∀ x ∈ acc, x < PEOPLE_NB) → k ≤ acc.length + d + 1 →
      (∃ m, i ≤ m ∧ m ≤ i + j ∧ stream m % PEOPLE_NB ∉ acc) →
      ∃ fuel out, pickLoop stream k fuel i acc = some out := by
  intro j
  induction j with
  | zero =>
    intro i acc hnd hb hlen hm
    obtain ⟨m, him, hmj, hnotin⟩ := hm
    have hmi : m = i := by omega
    subst hmi
    by_cases hk : k ≤ acc.length
    · exact ⟨0, acc, by simp [pickLoop, hk]⟩
    · exact pickLoop_accept stream k d H m acc hnd hb hk hlen hnotin
  | succ j ih =>
    intro i acc hnd hb hlen hm
    by_cases hk : k ≤ acc.length
    · exact ⟨0, acc, by simp [pickLoop, hk]⟩
    · by_cases hin : stream i % PEOPLE_NB ∈ acc
      · obtain ⟨m, him, hmj, hnotin⟩ := hm
        have hmi : m ≠ i := fun he => hnotin (he ▸ hin)
        obtain ⟨f, out, hout⟩ :=
          ih (i + 1) acc hnd hb hlen ⟨m, by omega, by omega, hnotin⟩
        refine ⟨f + 1, out, ?_⟩
        simp only [pickLoop, if_neg hk]
        rw [if_pos ((contains_iff acc _).mpr hin)]
        exact hout
      · exact pickLoop_accept stream k d H i acc hnd hb hk hlen hin

theorem pickLoop_fair_terminates (stream : Nat → Nat)
    (hf : FairStream stream) (k : Nat) (hk : k ≤ PEOPLE_NB) :
    ∀ (d : Nat) (acc : List Nat) (i : Nat), acc.Nodup →
      (∀ x ∈ acc, x < PEOPLE_NB) → k ≤ acc.length + d →
      ∃ fuel out, pickLoop stream k fuel i acc = some out := by
  intro d
  induction d with
  | zero =>
    intro acc i _ _ hlen
    have hk2 : k ≤ acc.length := by omega
    exact ⟨0, acc, by simp [pickLoop, hk2]⟩
  | succ d ih =>
    intro acc i hnd hb hlen
    by_cases hk2 : k ≤ acc.length
    · exact ⟨0, acc, by simp [pickLoop, hk2]⟩
    · have hlt : acc.length < PEOPLE_NB := by omega
      obtain ⟨v, hv, hvn⟩ := exists_missing acc hnd hlt
      obtain ⟨m, him, hmv⟩ := hf v hv i
      exact pickLoop_progress stream k d ih (m - i) i acc hnd hb hlen
        ⟨m, him, by omega, by rw [hmv]; exact hvn⟩

/-- C7: for every request `k ≤ PEOPLE_NB` and every fair random stream —
one in which each index below `PEOPLE_NB` keeps being drawn, which a
uniform source satisfies with probability 1 — the rejection-sampling
loop of `pickUniqueRandom` terminates: some finite fuel suffices for it
to return. -/
theorem pickUniqueRandom_terminates (stream : Nat → Nat) (k : Nat)
    (hf : FairStream stream) (hk : k ≤ PEOPLE_NB) :
    ∃ fuel out, pickUniqueRandom stream k fuel = some out :=
  pickLoop_fair_terminates stream hf k hk k [] 0 (by simp) (by simp) (by simp)

/-- Witness for `pickUniqueRandom_terminates`: the identity stream is
fair, and a request of 3 terminates. -/
theorem pickUniqueRandom_terminates_witness :
    ∃ fuel out, pickUniqueRandom (fun n => n) 3 fuel = some out :=
  pickUniqueRandom_terminates (fun n => n) 3
    (by
      intro v hv n
      rw [PEOPLE_NB_eq] at hv ⊢
      exact ⟨v + 11 * (n + 1), by omega,
        by show (v + 11 * (n + 1)) % 11 = v; omega⟩)
    (by decide)

/-! ### Button classifier (C4) -/

theorem sub32_eq_of_le (a b : Nat) (h1 : b ≤ a) (h2 : a - b < UINT32_MOD) :
    sub32 a b = a - b := by
  unfold sub32 UINT32_MOD at *
  omega

theorem sub32_self (a : Nat) : sub32 a a = 0 := by
  unfold sub32 UINT32_MOD
  omega

theorem sub32_wrap_of_lt (a b : Nat) (h1 : a < b) (h2 : b - a < UINT32_MOD) :
    sub32 a b = UINT32_MOD - (b - a) := by
  unfold sub32 UINT32_MOD at *
  omega

theorem pollButton_press_edge (s : BState) (now : Nat)
    (hl : s.lastButtonLevel = true)
    (hd : sub32 now s.lastButtonEdge > DEBOUNCE_MS) :
    pollButton s now false =
      (0, { lastButtonLevel := false, lastButtonEdge := now,
            longPressArmed := true, buttonPressMs := now }) := by
  have h0 : sub32 now now = 0 := sub32_self now
  simp +decide [pollButton, hl, hd, h0, LONG_PRESS_MS]

theorem pollButton_quiet_low (s : BState) (now : Nat)
    (hl : s.lastButtonLevel = false) (ha : s.longPressArmed = true)
    (hp : ¬ sub32 now s.buttonPressMs ≥ LONG_PRESS_MS) :
    pollButton s now false = (0, s) := by
  simp [pollButton, hl, ha, hp]

theorem pollButton_fire (s : BState) (now : Nat)
    (hl : s.lastButtonLevel = false) (ha : s.longPressArmed = true)
    (hp : sub32 now s.buttonPressMs ≥ LONG_PRESS_MS) :
    pollButton s now false = (2, { s with longPressArmed := false }) := by
  simp [pollButton, hl, ha, hp]

theorem pollButton_low_disarmed_noop (s : BState) (now : Nat)
    (hl : s.lastButtonLevel = false) (ha : s.longPressArmed = false) :
    pollButton s now false = (0, s) := by
  simp [pollButton, hl, ha]

theorem pollButton_noevt_disarmed (s : BState) (now : Nat) (level : Bool)
    (ha : s.longPressArmed = false) :
    (pollButton s now level).1 = 0 := by
  have h0 : sub32 now now = 0 := sub32_self now
  cases hll : s.lastButtonLevel <;> cases level <;>
    simp +decide [pollButton, ha, hll, h0, LONG_PRESS_MS] <;>
    split <;> simp +decide [h0, ha]

theorem pollButton_high_keeps_disarmed (s : BState) (now : Nat)
    (ha : s.longPressArmed = false) :
    (pollButton s now true).2.longPressArmed = false := by
  cases hll : s.lastButtonLevel <;>
    simp +decide [pollButton, ha, hll] <;>
    split <;> simp [ha]

theorem pollRun_held_armed (t0 : Nat) :
    ∀ (ts : List Nat) (s : BState), s.lastButtonLevel = false →
      s.longPressArmed = true → s.buttonPressMs = t0 →
      (∀ t ∈ ts, t0 ≤ t ∧ t - t0 < LONG_PRESS_MS) →
      pollRun s (ts.map fun t => (t, false)) = (ts.map fun _ => 0, s) := by
  intro ts
  induction ts with
  | nil => intro s _ _ _ _; rfl
  | cons t rest ih =>
    intro s hl ha hp hb
    obtain ⟨hb1, hb2⟩ := hb t (List.mem_cons_self t rest)
    have hsub : sub32 t t0 = t - t0 := by
      apply sub32_eq_of_le t t0 hb1
      unfold LONG_PRESS_MS UINT32_MOD at *
      omega
    have hstep : pollButton s t false = (0, s) := by
      apply pollButton_quiet_low s t hl ha
      rw [hp, hsub]
      omega
    simp only [List.map_cons, pollRun, hstep]
    rw [ih s hl ha hp (fun x hx => hb x (List.mem_cons_of_mem t hx))]

theorem pollRun_held_disarmed :
    ∀ (ts : List Nat) (s : BState), s.lastButtonLevel = false →
      s.longPressArmed = false →
      pollRun s (ts.map fun t => (t, false)) = (ts.map fun _ => 0, s) := by
  intro ts
  induction ts with
  | nil => intro s _ _; rfl
  | cons t rest ih =>
    intro s hl ha
    have hstep : pollButton s t false = (0, s) :=
      pollButton_low_disarmed_noop s t hl ha
    simp only [List.map_cons, pollRun, hstep]
    rw [ih s hl ha]

theorem pollRun_released_disarmed :
    ∀ (ts : List Nat) (s : BState), s.longPressArmed = false →
      (pollRun s (ts.map fun t => (t, true))).1 = ts.map fun _ => 0 := by
  intro ts
  induction ts with
  | nil => intro s _; rfl
  | cons t rest ih =>
    intro s ha
    simp only [List.map_cons, pollRun]
    rw [pollButton_noevt_disarmed s t true ha,
      ih _ (pollButton_high_keeps_disarmed s t ha)]

theorem pollRun_append (l1 l2 : List (Nat × Bool)) : ∀ s : BState,
    pollRun s (l1 ++ l2) =
      ((pollRun s l1).1 ++ (pollRun (pollRun s l1).2 l2).1,
       (pollRun (pollRun s l1).2 l2).2) := by
  induction l1 with
  | nil => intro s; rfl
  | cons x rest ih =>
    intro s
    simp only [List.cons_append, pollRun, List.append_eq, ih]

theorem exists_first_split (P : Nat → Prop) [DecidablePred P] :
    ∀ l : List Nat, (∃ x ∈ l, P x) →
      ∃ pre x post, l = pre ++ x :: post ∧ (∀ y ∈ pre, ¬ P y) ∧ P x := by
  intro l
  induction l with
  | nil => simp
  | cons a rest ih =>
    intro h
    by_cases hP : P a
    · exact ⟨[], a, rest, rfl, by simp, hP⟩
    · have hrest : ∃ x ∈ rest, P x := by
        rcases h with ⟨x, hx, hPx⟩
        rcases List.mem_cons.mp hx with rfl | hx2
        · exact absurd hPx hP
        · exact ⟨x, hx2, hPx⟩
      obtain ⟨pre, x, post, heq, hpre, hPx⟩ := ih hrest
      refine ⟨a :: pre, x, post, by rw [heq, List.cons_append], ?_, hPx⟩
      intro y hy
      rcases List.mem_cons.mp hy with rfl | hy2
      · exact hP
      · exact hpre y hy2

theorem filter_map_zeros (l : List Nat) :
    (l.map fun _ => (0 : Nat)).filter (fun e => e != 0) = [] := by
  induction l with
  | nil => rfl
  | cons a rest ih => simp [ih]

theorem pollButton_release_rejected (s : BState) (now : Nat)
    (hl : s.lastButtonLevel = false)
    (hd : ¬ sub32 now s.lastButtonEdge > DEBOUNCE_MS) :
    pollButton s now true = (0, s) := by
  simp +decide [pollButton, hl, hd]

theorem pollButton_release_accepted (s : BState) (now : Nat)
    (hl : s.lastButtonLevel = false) (ha : s.longPressArmed = true)
    (hd : sub32 now s.lastButtonEdge > DEBOUNCE_MS) :
    pollButton s now true =
      ((if sub32 now s.buttonPressMs ≥ LONG_PRESS_MS then 2 else 1),
       { s with lastButtonLevel := true, lastButtonEdge := now,
                longPressArmed := false }) := by
  simp +decide [pollButton, hl, ha, hd]

theorem pollRun_release_rejected (t0 : Nat) :
    ∀ (ts : List Nat) (s : BState), s.lastButtonLevel = false →
      s.lastButtonEdge = t0 →
      (∀ t ∈ ts, t0 ≤ t ∧ t - t0 ≤ DEBOUNCE_MS) →
      pollRun s (ts.map fun t => (t, true)) = (ts.map fun _ => 0, s) := by
  intro ts
  induction ts with
  | nil => intro s _ _ _; rfl
  | cons t rest ih =>
    intro s hl he hb
    obtain ⟨hb1, hb2⟩ := hb t (List.mem_cons_self t rest)
    have hd : ¬ sub32 t s.lastButtonEdge > DEBOUNCE_MS := by
      rw [he, sub32_eq_of_le t t0 hb1
        (by unfold DEBOUNCE_MS UINT32_MOD at *; omega)]
      omega
    have hstep : pollButton s t true = (0, s) :=
      pollButton_release_rejected s t hl hd
    simp only [List.map_cons, pollRun, hstep]
    rw [ih s hl he (fun x hx => hb x (List.mem_cons_of_mem t hx))]

/-- A cycle held past `LONG_PRESS_MS` emits the LongPress once, while
still held, and nothing else — in particular nothing on the release. -/
theorem pollRun_cycle_long (s0 : BState) (t0 : Nat)
    (hs rs : List Nat)
    (hL : s0.lastButtonLevel = true)
    (hA : s0.longPressArmed = false)
    (hE : sub32 t0 s0.lastButtonEdge > DEBOUNCE_MS)
    (hgt : ∀ t ∈ hs, t0 ≤ t)
    (hbound : ∀ t ∈ hs, t - t0 < UINT32_MOD)
    (hlong : ∃ h ∈ hs, t0 + LONG_PRESS_MS ≤ h) :
    ((pollRun s0 ((t0, false) ::
        (hs.map (fun t => (t, false)) ++ rs.map (fun t => (t, true))))).1).filter
      (fun e => e != 0) = [2] := by
  obtain ⟨pre, f, post, hsplit, hpre, hf⟩ :=
    exists_first_split (fun t => t0 + LONG_PRESS_MS ≤ t) hs hlong
  subst hsplit
  -- state after the accepted press edge
  have hstep0 := pollButton_press_edge s0 t0 hL hE
  set s1 : BState :=
    { lastButtonLevel := false, lastButtonEdge := t0,
      longPressArmed := true, buttonPressMs := t0 } with hs1
  -- the held samples before the threshold emit nothing
  have hpreRun : pollRun s1 (pre.map fun t => (t, false)) =
      (pre.map fun _ => 0, s1) := by
    apply pollRun_held_armed t0 pre s1 rfl rfl rfl
    intro t ht
    refine ⟨hgt t (by simp [ht]), ?_⟩
    have := hpre t ht
    unfold LONG_PRESS_MS at *
    omega
  -- the first sample past the threshold fires the long press
  have hfsub : sub32 f t0 = f - t0 := by
    apply sub32_eq_of_le f t0 (hgt f (by simp))
    exact hbound f (by simp)
  have hfire : pollButton s1 f false =
      (2, { s1 with longPressArmed := false }) := by
    apply pollButton_fire s1 f rfl rfl
    rw [show s1.buttonPressMs = t0 from rfl, hfsub]
    unfold LONG_PRESS_MS at *
    omega
  set s2 : BState := { s1 with longPressArmed := false } with hs2
  -- the remaining held samples emit nothing
  have hpostRun : pollRun s2 (post.map fun t => (t, false)) =
      (post.map fun _ => 0, s2) :=
    pollRun_held_disarmed post s2 rfl rfl
  -- the released samples emit nothing
  have hrelRun : (pollRun s2 (rs.map fun t => (t, true))).1 =
      rs.map fun _ => 0 :=
    pollRun_released_disarmed rs s2 rfl
  simp only [List.map_append, List.map_cons, List.cons_append,
    List.append_assoc, pollRun, hstep0]
  rw [pollRun_append, hpreRun]
  simp only [pollRun, hfire]
  rw [pollRun_append, hpostRun]
  simp only [List.filter_cons, List.filter_append]
  rw [hrelRun]
  simp [filter_map_zeros]

/-- A cycle released before `LONG_PRESS_MS` emits exactly one event,
at the first release sample clearing the press edge's debounce
window. -/
theorem pollRun_cycle_short (s0 : BState) (t0 : Nat)
    (hs rs : List Nat)
    (hL : s0.lastButtonLevel = true)
    (hA : s0.longPressArmed = false)
    (hE : sub32 t0 s0.lastButtonEdge > DEBOUNCE_MS)
    (hgt : ∀ t ∈ hs, t0 ≤ t)
    (hshort : ∀ t ∈ hs, t < t0 + LONG_PRESS_MS)
    (rgt : ∀ t ∈ rs, t0 ≤ t)
    (rbound : ∀ t ∈ rs, t - t0 < UINT32_MOD)
    (hrel : ∃ r ∈ rs, t0 + DEBOUNCE_MS < r) :
    (((pollRun s0 ((t0, false) ::
        (hs.map (fun t => (t, false)) ++
          rs.map (fun t => (t, true))))).1).filter
      (fun e => e != 0)).length = 1 := by
  obtain ⟨rpre, tr, rpost, hsplit, hpre, htr⟩ :=
    exists_first_split (fun t => t0 + DEBOUNCE_MS < t) rs hrel
  subst hsplit
  have hstep0 := pollButton_press_edge s0 t0 hL hE
  set s1 : BState :=
    { lastButtonLevel := false, lastButtonEdge := t0,
      longPressArmed := true, buttonPressMs := t0 } with hs1
  have hheld : pollRun s1 (hs.map fun t => (t, false)) =
      (hs.map fun _ => 0, s1) := by
    apply pollRun_held_armed t0 hs s1 rfl rfl rfl
    intro t ht
    have h1 := hgt t ht
    have h2 := hshort t ht
    refine ⟨h1, ?_⟩
    unfold LONG_PRESS_MS at *
    omega
  have hpreRun : pollRun s1 (rpre.map fun t => (t, true)) =
      (rpre.map fun _ => 0, s1) := by
    apply pollRun_release_rejected t0 rpre s1 rfl rfl
    intro t ht
    have h1 := rgt t (List.mem_append_left _ ht)
    have h2 := hpre t ht
    refine ⟨h1, ?_⟩
    unfold DEBOUNCE_MS at *
    omega
  have htrsub : sub32 tr t0 = tr - t0 := by
    apply sub32_eq_of_le tr t0
      (rgt tr (List.mem_append_right _ (List.mem_cons_self tr rpost)))
    exact rbound tr
      (List.mem_append_right _ (List.mem_cons_self tr rpost))
  have hacc : pollButton s1 tr true =
      ((if sub32 tr s1.buttonPressMs ≥ LONG_PRESS_MS then 2 else 1),
       { s1 with lastButtonLevel := true, lastButtonEdge := tr,
                 longPressArmed := false }) := by
    apply pollButton_release_accepted s1 tr rfl rfl
    rw [show s1.lastButtonEdge = t0 from rfl, htrsub]
    unfold DEBOUNCE_MS at *
    omega
  set s2 : BState :=
    { s1 with lastButtonLevel := true, lastButtonEdge := tr,
              longPressArmed := false } with hs2
  have hpostRun : (pollRun s2 (rpost.map fun t => (t, true))).1 =
      rpost.map fun _ => 0 :=
    pollRun_released_disarmed rpost s2 rfl
  simp only [List.map_append, List.map_cons, List.cons_append,
    List.append_assoc, pollRun, hstep0]
  rw [pollRun_append, hheld]
  simp only [Prod.fst, Prod.snd]
  rw [pollRun_append, hpreRun]
  simp only [pollRun, hacc]
  split <;>
    simp +decide [List.filter_append, filter_map_zeros, hpostRun]

/-- C4: the classifier emits exactly one event per physical
press-and-release cycle: after an accepted press edge at `t0`, held
(`LOW`) samples `hs` and released (`HIGH`) samples `rs` — where the
cycle is observed, i.e. either the hold reaches `LONG_PRESS_MS` or some
release sample clears the press edge's debounce window — the event
trace holds exactly one nonzero event; and when the button was held at
least `LONG_PRESS_MS`, that one event is the LongPress, fired while
held, with nothing further on the release. -/
theorem pollButton_one_event_per_cycle (s0 : BState) (t0 : Nat)
    (hs rs : List Nat)
    (hL : s0.lastButtonLevel = true)
    (hA : s0.longPressArmed = false)
    (hE : sub32 t0 s0.lastButtonEdge > DEBOUNCE_MS)
    (hgt : ∀ t ∈ hs, t0 ≤ t)
    (hbound : ∀ t ∈ hs, t - t0 < UINT32_MOD)
    (rgt : ∀ t ∈ rs, t0 ≤ t)
    (rbound : ∀ t ∈ rs, t - t0 < UINT32_MOD)
    (hlive : (∃ h ∈ hs, t0 + LONG_PRESS_MS ≤ h) ∨
      (∃ r ∈ rs, t0 + DEBOUNCE_MS < r)) :
    (((pollRun s0 ((t0, false) ::
        (hs.map (fun t => (t, false)) ++
          rs.map (fun t => (t, true))))).1).filter
      (fun e => e != 0)).length = 1 ∧
    ((∃ h ∈ hs, t0 + LONG_PRESS_MS ≤ h) →
      ((pollRun s0 ((t0, false) ::
          (hs.map (fun t => (t, false)) ++
            rs.map (fun t => (t, true))))).1).filter
        (fun e => e != 0) = [2]) := by
  constructor
  · by_cases hlong : ∃ h ∈ hs, t0 + LONG_PRESS_MS ≤ h
    · rw [pollRun_cycle_long s0 t0 hs rs hL hA hE hgt hbound hlong]
      rfl
    · have hrel := hlive.resolve_left hlong
      push_neg at hlong
      apply pollRun_cycle_short s0 t0 hs rs hL hA hE hgt ?_ rgt rbound hrel
      intro t ht
      have := hlong t ht
      omega
  · intro hlong
    exact pollRun_cycle_long s0 t0 hs rs hL hA hE hgt hbound hlong

/-- Witness for `pollButton_one_event_per_cycle`: press at 100, held
samples at 200 and 950, release at 1000 (a long-hold cycle). -/
theorem pollButton_one_event_per_cycle_witness :
    (((pollRun initBState ((100, false) ::
        ([200, 950].map (fun t => (t, false)) ++
          [1000].map (fun t => (t, true))))).1).filter
      (fun e => e != 0)).length = 1 ∧
    ((∃ h ∈ [200, 950], 100 + LONG_PRESS_MS ≤ h) →
      ((pollRun initBState ((100, false) ::
          ([200, 950].map (fun t => (t, false)) ++
            [1000].map (fun t => (t, true))))).1).filter
        (fun e => e != 0) = [2]) :=
  pollButton_one_event_per_cycle initBState 100 [200, 950] [1000]
    (by decide) (by decide) (by decide) (by decide) (by decide)
    (by decide) (by decide) (by decide)

/-! ### Mode controller (C1, C6, C9, C10) -/

@[simp] theorem renderIdleStep_state (c : Ctrl) (now : Nat) :
    (renderIdleStep c now).state = c.state := by
  unfold renderIdleStep
  split <;> rfl

@[simp] theorem renderIdleStep_requestedCount (c : Ctrl) (now : Nat) :
    (renderIdleStep c now).requestedCount = c.requestedCount := by
  unfold renderIdleStep
  split <;> rfl

@[simp] theorem renderIdleStep_selected (c : Ctrl) (now : Nat) :
    (renderIdleStep c now).selected = c.selected := by
  unfold renderIdleStep
  split <;> rfl

@[simp] theorem renderIdleStep_countWindowEnds (c : Ctrl) (now : Nat) :
    (renderIdleStep c now).countWindowEnds = c.countWindowEnds := by
  unfold renderIdleStep
  split <;> rfl

@[simp] theorem renderIdleStep_stateEnterMs (c : Ctrl) (now : Nat) :
    (renderIdleStep c now).stateEnterMs = c.stateEnterMs := by
  unfold renderIdleStep
  split <;> rfl

@[simp] theorem renderAnimStep_state (c : Ctrl) (now : Nat) :
    (renderAnimStep c now).state = c.state := by
  unfold renderAnimStep
  split <;> rfl

@[simp] theorem renderAnimStep_requestedCount (c : Ctrl) (now : Nat) :
    (renderAnimStep c now).requestedCount = c.requestedCount := by
  unfold renderAnimStep
  split <;> rfl

@[simp] theorem renderAnimStep_selected (c : Ctrl) (now : Nat) :
    (renderAnimStep c now).selected = c.selected := by
  unfold renderAnimStep
  split <;> rfl

@[simp] theorem renderAnimStep_stateEnterMs (c : Ctrl) (now : Nat) :
    (renderAnimStep c now).stateEnterMs = c.stateEnterMs := by
  unfold renderAnimStep
  split <;> rfl

@[simp] theorem enterState_state (c : Ctrl) (s : MState) (now : Nat) :
    (enterState c s now).state = s := by
  cases s <;> rfl

@[simp] theorem enterState_requestedCount (c : Ctrl) (s : MState) (now : Nat) :
    (enterState c s now).requestedCount = c.requestedCount := by
  cases s <;> rfl

@[simp] theorem enterState_selected (c : Ctrl) (s : MState) (now : Nat) :
    (enterState c s now).selected = c.selected := by
  cases s <;> rfl

@[simp] theorem enterState_stateEnterMs (c : Ctrl) (s : MState) (now : Nat) :
    (enterState c s now).stateEnterMs = now := by
  cases s <;> rfl

theorem enterState_counting_window (c : Ctrl) (now : Nat) :
    (enterState c MState.COUNTING now).countWindowEnds =
      now + COUNT_WINDOW_MS := rfl

/-- C1 counterexample: `animReached` is a reachable `ANIMATING` state
(three short presses at 100, 200, 300 from `initCtrl`, window expiry at
1301, so `requestedCount = 3`); a LongPress tick at 2000 lands in
`IDLE` but leaves `requestedCount = 3`, so the claim that a LongPress
from every reachable Counting, Animating, or Show state resets
`requestedCount` to 0 and discards the selection is false at this
reachable input. -/
theorem longPress_reset_counterexample :
    ¬ (∀ (c c' : Ctrl) (stream : Nat → Nat) (fuel now : Nat),
        Reachable c →
        (c.state = MState.COUNTING ∨ c.state = MState.ANIMATING ∨
          c.state = MState.SHOW) →
        ctrlStep stream fuel c 2 now = some c' →
        c'.state = MState.IDLE ∧ c'.requestedCount = 0 ∧
          c'.selected = []) := by
  intro hclaim
  have h1 : Reachable countingDemoA :=
    Reachable.step (fun _ => 0) 0 initCtrl countingDemoA 1 100
      Reachable.init (by decide)
  have h2 : Reachable countingDemoB :=
    Reachable.step (fun _ => 0) 0 countingDemoA countingDemoB 1 200
      h1 (by decide)
  have h3 : Reachable countingDemoC :=
    Reachable.step (fun _ => 0) 0 countingDemoB countingDemoC 1 300
      h2 (by decide)
  have h4 : Reachable animReached :=
    Reachable.step (fun _ => 0) 0 countingDemoC animReached 0 1301
      h3 (by decide)
  have h := hclaim animReached idleAfterDemo (fun _ => 0) 0 2000 h4
    (Or.inr (Or.inl rfl)) (by decide)
  exact absurd h.2.1 (by decide)

/-- C1 (amended): processing a LongPress in `COUNTING`, `ANIMATING` or
`SHOW` transitions to `IDLE` within the same tick; `requestedCount` is
reset to 0 only when the press arrives in `COUNTING`, while from
`ANIMATING` and `SHOW` the stale `requestedCount` and the stored
selection are left in place (both are overwritten before any later
use). -/
theorem longPress_escape_to_idle (stream : Nat → Nat) (fuel : Nat)
    (c : Ctrl) (now : Nat)
    (h : c.state = MState.COUNTING ∨ c.state = MState.ANIMATING ∨
      c.state = MState.SHOW) :
    ∃ c', ctrlStep stream fuel c 2 now = some c' ∧
      c'.state = MState.IDLE ∧
      c'.requestedCount =
        (if c.state = MState.COUNTING then 0 else c.requestedCount) ∧
      c'.selected = c.selected := by
  rcases h with h | h | h
  · refine ⟨enterState { renderIdleStep c now with requestedCount := 0 }
      MState.IDLE now, ?_, by simp, by simp +decide [h], by simp [h]⟩
    simp +decide [ctrlStep, h]
  · refine ⟨enterState (renderAnimStep c now) MState.IDLE now, ?_,
      by simp, by simp +decide [h], by simp [h]⟩
    simp +decide [ctrlStep, h]
  · refine ⟨enterState c MState.IDLE now, ?_,
      by simp, by simp +decide [h], by simp [h]⟩
    simp +decide [ctrlStep, h]

/-- Witness for `longPress_escape_to_idle` from the reachable
`COUNTING` state `countingDemo`. -/
theorem longPress_escape_to_idle_witness :
    ∃ c', ctrlStep (fun _ => 0) 0 countingDemo 2 1000 = some c' ∧
      c'.state = MState.IDLE ∧
      c'.requestedCount =
        (if countingDemo.state = MState.COUNTING then 0
          else countingDemo.requestedCount) ∧
      c'.selected = countingDemo.selected :=
  longPress_escape_to_idle (fun _ => 0) 0 countingDemo 1000 (Or.inl rfl)

theorem window_not_expired (tp now : Nat) (h1 : tp ≤ now)
    (h2 : now < tp + COUNT_WINDOW_MS) :
    ¬ sub32 now (tp + COUNT_WINDOW_MS) < INT32_HALF := by
  have hw := sub32_wrap_of_lt now (tp + COUNT_WINDOW_MS) (by omega)
    (by unfold COUNT_WINDOW_MS UINT32_MOD at *; omega)
  rw [hw]
  unfold COUNT_WINDOW_MS UINT32_MOD INT32_HALF at *
  omega

theorem ctrlStep_idle_press (stream : Nat → Nat) (fuel : Nat) (c : Ctrl)
    (now : Nat) (hs : c.state = MState.IDLE) :
    ∃ c', ctrlStep stream fuel c 1 now = some c' ∧
      c'.state = MState.COUNTING ∧ c'.requestedCount = 1 ∧
      c'.countWindowEnds = now + COUNT_WINDOW_MS := by
  refine ⟨enterState { renderIdleStep c now with requestedCount := 1 }
    MState.COUNTING now, ?_, by simp, by simp, by
      rw [enterState_counting_window]⟩
  simp +decide [ctrlStep, hs]

theorem ctrlStep_counting_silent (stream : Nat → Nat) (fuel : Nat)
    (c : Ctrl) (now tp : Nat) (hs : c.state = MState.COUNTING)
    (hw : c.countWindowEnds = tp + COUNT_WINDOW_MS)
    (h1 : tp ≤ now) (h2 : now < tp + COUNT_WINDOW_MS) :
    ∃ c', ctrlStep stream fuel c 0 now = some c' ∧
      c'.state = MState.COUNTING ∧
      c'.requestedCount = c.requestedCount ∧
      c'.countWindowEnds = c.countWindowEnds := by
  have hne : ¬ sub32 now c.countWindowEnds < INT32_HALF := by
    rw [hw]
    exact window_not_expired tp now h1 h2
  refine ⟨renderIdleStep c now, ?_, by simp [hs], by simp, by simp⟩
  simp +decide [ctrlStep, hs, hne]

theorem ctrlStep_counting_press (stream : Nat → Nat) (fuel : Nat)
    (c : Ctrl) (now : Nat) (hs : c.state = MState.COUNTING)
    (hrc : c.requestedCount < MAX_REQUEST) :
    ∃ c', ctrlStep stream fuel c 1 now = some c' ∧
      c'.state = MState.COUNTING ∧
      c'.requestedCount = c.requestedCount + 1 ∧
      c'.countWindowEnds = now + COUNT_WINDOW_MS := by
  have hne : ¬ sub32 now (now + COUNT_WINDOW_MS) < INT32_HALF :=
    window_not_expired now now (Nat.le_refl now)
      (by unfold COUNT_WINDOW_MS; omega)
  refine ⟨{ renderIdleStep c now with
      requestedCount := c.requestedCount + 1,
      countWindowEnds := now + COUNT_WINDOW_MS }, ?_, by simp [hs],
    rfl, rfl⟩
  simp +decide [ctrlStep, hs, hne, hrc]

theorem ctrlStep_counting_expire (stream : Nat → Nat) (fuel : Nat)
    (c : Ctrl) (now tp : Nat) (hs : c.state = MState.COUNTING)
    (hw : c.countWindowEnds = tp + COUNT_WINDOW_MS)
    (h1 : tp + COUNT_WINDOW_MS ≤ now)
    (h2 : now - (tp + COUNT_WINDOW_MS) < INT32_HALF)
    (hrc1 : 1 ≤ c.requestedCount) (hrc2 : c.requestedCount ≤ PEOPLE_NB) :
    ∃ c', ctrlStep stream fuel c 0 now = some c' ∧
      c'.state = MState.ANIMATING ∧
      c'.requestedCount = c.requestedCount := by
  have hexp : sub32 now c.countWindowEnds < INT32_HALF := by
    rw [hw, sub32_eq_of_le now (tp + COUNT_WINDOW_MS) h1
      (by unfold UINT32_MOD INT32_HALF at *; omega)]
    exact h2
  have hz : ¬ c.requestedCount = 0 := by omega
  have hgt : ¬ c.requestedCount > PEOPLE_NB := by omega
  refine ⟨enterState { renderIdleStep c now with
      requestedCount := c.requestedCount } MState.ANIMATING now, ?_,
    by simp, by simp⟩
  simp +decide [ctrlStep, hs, hexp, hz, hgt]

theorem ctrlRun_append (stream : Nat → Nat) (fuel : Nat)
    (l1 l2 : List (Nat × Nat)) : ∀ c : Ctrl,
    ctrlRun stream fuel c (l1 ++ l2) =
      (ctrlRun stream fuel c l1).bind fun c' =>
        ctrlRun stream fuel c' l2 := by
  induction l1 with
  | nil => intro c; rfl
  | cons x rest ih =>
    intro c
    simp only [List.cons_append, ctrlRun, List.append_eq, ih]
    cases ctrlStep stream fuel c x.1 x.2 <;> rfl

theorem ctrlRun_counting_silent (stream : Nat → Nat) (fuel : Nat)
    (tp : Nat) :
    ∀ (ts : List Nat) (c : Ctrl), c.state = MState.COUNTING →
      c.countWindowEnds = tp + COUNT_WINDOW_MS →
      (∀ t ∈ ts, tp ≤ t ∧ t < tp + COUNT_WINDOW_MS) →
      ∃ c', ctrlRun stream fuel c (ts.map fun t => (0, t)) = some c' ∧
        c'.state = MState.COUNTING ∧
        c'.requestedCount = c.requestedCount ∧
        c'.countWindowEnds = c.countWindowEnds := by
  intro ts
  induction ts with
  | nil => intro c h1 h2 _; exact ⟨c, rfl, h1, rfl, rfl⟩
  | cons t rest ih =>
    intro c h1 h2 hb
    obtain ⟨hb1, hb2⟩ := hb t (List.mem_cons_self t rest)
    obtain ⟨c1, hstep, hc1s, hc1rc, hc1w⟩ :=
      ctrlStep_counting_silent stream fuel c t tp h1 h2 hb1 hb2
    obtain ⟨c', hrun, hc's, hc'rc, hc'w⟩ :=
      ih c1 hc1s (hc1w.trans h2)
        (fun x hx => hb x (List.mem_cons_of_mem t hx))
    refine ⟨c', ?_, hc's, by rw [hc'rc, hc1rc], by rw [hc'w, hc1w]⟩
    simp only [List.map_cons, ctrlRun]
    rw [hstep]
    exact hrun

/-- C6: from an `IDLE` state, a short press at `t1` (entering
`COUNTING`), further short presses at `t2` and `t3` each within
`COUNT_WINDOW_MS` of the previous press, interleaved with arbitrary
silent ticks `s1, s2, s3` that stay inside the respective windows, and a
silent tick at `t4` after more than `COUNT_WINDOW_MS` of silence, drive
the controller into `ANIMATING` with `requestedCount = 3` at that
transition. -/
theorem counting_three_presses (stream : Nat → Nat) (fuel : Nat)
    (c : Ctrl) (hc : c.state = MState.IDLE)
    (t1 t2 t3 t4 : Nat) (s1 s2 s3 : List Nat)
    (h12 : t1 ≤ t2) (h12w : t2 < t1 + COUNT_WINDOW_MS)
    (h23 : t2 ≤ t3) (h23w : t3 < t2 + COUNT_WINDOW_MS)
    (hs1 : ∀ t ∈ s1, t1 ≤ t ∧ t < t1 + COUNT_WINDOW_MS)
    (hs2 : ∀ t ∈ s2, t2 ≤ t ∧ t < t2 + COUNT_WINDOW_MS)
    (hs3 : ∀ t ∈ s3, t3 ≤ t ∧ t < t3 + COUNT_WINDOW_MS)
    (h4 : t3 + COUNT_WINDOW_MS ≤ t4)
    (h4b : t4 - (t3 + COUNT_WINDOW_MS) < INT32_HALF) :
    ∃ c', ctrlRun stream fuel c
        ((1, t1) :: (s1.map (fun t => (0, t)) ++
          (1, t2) :: (s2.map (fun t => (0, t)) ++
            (1, t3) :: (s3.map (fun t => (0, t)) ++ [(0, t4)])))) =
        some c' ∧
      c'.state = MState.ANIMATING ∧ c'.requestedCount = 3 := by
  obtain ⟨cA, hA, hAs, hArc, hAw⟩ := ctrlStep_idle_press stream fuel c t1 hc
  obtain ⟨cB, hB, hBs, hBrc, hBw⟩ :=
    ctrlRun_counting_silent stream fuel t1 s1 cA hAs hAw hs1
  obtain ⟨cC, hC, hCs, hCrc, hCw⟩ :=
    ctrlStep_counting_press stream fuel cB t2 hBs
      (by rw [hBrc, hArc]; decide)
  obtain ⟨cD, hD, hDs, hDrc, hDw⟩ :=
    ctrlRun_counting_silent stream fuel t2 s2 cC hCs hCw hs2
  obtain ⟨cE, hE, hEs, hErc, hEw⟩ :=
    ctrlStep_counting_press stream fuel cD t3 hDs
      (by rw [hDrc, hCrc, hBrc, hArc]; decide)
  obtain ⟨cF, hF, hFs, hFrc, hFw⟩ :=
    ctrlRun_counting_silent stream fuel t3 s3 cE hEs hEw hs3
  have hrc3 : cF.requestedCount = 3 := by
    rw [hFrc, hErc, hDrc, hCrc, hBrc, hArc]
  obtain ⟨cG, hG, hGs, hGrc⟩ :=
    ctrlStep_counting_expire stream fuel cF t4 t3 hFs (hFw.trans hEw)
      h4 h4b (by omega) (by rw [hrc3]; decide)
  refine ⟨cG, ?_, hGs, by rw [hGrc, hrc3]⟩
  simp only [ctrlRun]
  rw [hA]
  simp only [Option.some_bind]
  rw [ctrlRun_append, hB]
  simp only [Option.some_bind, ctrlRun]
  rw [hC]
  simp only [Option.some_bind]
  rw [ctrlRun_append, hD]
  simp only [Option.some_bind, ctrlRun]
  rw [hE]
  simp only [Option.some_bind]
  rw [ctrlRun_append, hF]
  simp only [Option.some_bind, ctrlRun]
  rw [hG]
  rfl

set_option maxRecDepth 4000 in
/-- Witness for `counting_three_presses`: presses at 100, 200, 300, a
silent tick at 1301, no interleaved ticks. -/
theorem counting_three_presses_witness :
    ∃ c', ctrlRun (fun _ => 0) 0 initCtrl
        ((1, 100) :: (([] : List Nat).map (fun t => (0, t)) ++
          (1, 200) :: (([] : List Nat).map (fun t => (0, t)) ++
            (1, 300) :: (([] : List Nat).map (fun t => (0, t)) ++
              [(0, 1301)])))) = some c' ∧
      c'.state = MState.ANIMATING ∧ c'.requestedCount = 3 :=
  counting_three_presses (fun _ => 0) 0 initCtrl rfl 100 200 300 1301
    [] [] [] (by decide) (by decide) (by decide) (by decide) (by decide)
    (by decide) (by decide) (by decide) (by decide)

theorem ctrlStep_counting_long (stream : Nat → Nat) (fuel : Nat)
    (c : Ctrl) (now : Nat) (hs : c.state = MState.COUNTING) :
    ctrlStep stream fuel c 2 now =
      some (enterState { renderIdleStep c now with requestedCount := 0 }
        MState.IDLE now) := by
  simp +decide [ctrlStep, hs]

theorem ctrlStep_counting_press_any (stream : Nat → Nat) (fuel : Nat)
    (c : Ctrl) (now : Nat) (hs : c.state = MState.COUNTING) :
    ctrlStep stream fuel c 1 now =
      some { renderIdleStep c now with
        requestedCount :=
          if c.requestedCount < MAX_REQUEST then c.requestedCount + 1
          else c.requestedCount,
        countWindowEnds := now + COUNT_WINDOW_MS } := by
  have hne : ¬ sub32 now (now + COUNT_WINDOW_MS) < INT32_HALF :=
    window_not_expired now now (Nat.le_refl now)
      (by unfold COUNT_WINDOW_MS; omega)
  simp +decide [ctrlStep, hs, hne]

theorem ctrlStep_counting_other_expired (stream : Nat → Nat) (fuel : Nat)
    (c : Ctrl) (now btn : Nat) (hs : c.state = MState.COUNTING)
    (hb2 : btn ≠ 2) (hb1 : btn ≠ 1)
    (hex : sub32 now c.countWindowEnds < INT32_HALF) :
    ∃ c', ctrlStep stream fuel c btn now = some c' ∧
      c'.state = MState.ANIMATING := by
  refine ⟨enterState { renderIdleStep c now with
      requestedCount :=
        if (if c.requestedCount = 0 then 1 else c.requestedCount) >
            PEOPLE_NB then PEOPLE_NB
        else (if c.requestedCount = 0 then 1 else c.requestedCount) }
    MState.ANIMATING now, ?_, by simp⟩
  simp +decide [ctrlStep, hs, hb2, hb1, hex]

theorem ctrlStep_counting_other_quiet (stream : Nat → Nat) (fuel : Nat)
    (c : Ctrl) (now btn : Nat) (hs : c.state = MState.COUNTING)
    (hb2 : btn ≠ 2) (hb1 : btn ≠ 1)
    (hne : ¬ sub32 now c.countWindowEnds < INT32_HALF) :
    ctrlStep stream fuel c btn now = some (renderIdleStep c now) := by
  simp +decide [ctrlStep, hs, hb2, hb1, hne]

/-- C9: in every reachable controller state in `COUNTING`, the press
counter satisfies `1 ≤ requestedCount ≤ PEOPLE_NB` — entry from `IDLE`
sets it to 1 and each further press increments only below
`MAX_REQUEST = PEOPLE_NB` — hence the `requestedCount == 0` clamp at
window expiry is never exercised from a reachable state. -/
theorem counting_count_invariant (c : Ctrl) (hr : Reachable c) :
    c.state = MState.COUNTING →
      1 ≤ c.requestedCount ∧ c.requestedCount ≤ PEOPLE_NB := by
  induction hr with
  | init =>
    intro h
    exact absurd h (by decide)
  | step stream fuel c c' btn now hr heq ih =>
    intro h'
    cases hcs : c.state with
    | IDLE =>
      simp only [ctrlStep, hcs] at heq
      split at heq
      · obtain rfl := Option.some.inj heq
        rw [renderIdleStep_state, hcs] at h'
        exact absurd h' (by decide)
      · split at heq
        · obtain rfl := Option.some.inj heq
          refine ⟨by simp, by simp +decide⟩
        · obtain rfl := Option.some.inj heq
          rw [renderIdleStep_state, hcs] at h'
          exact absurd h' (by decide)
    | COUNTING =>
      obtain ⟨ih1, ih2⟩ := ih hcs
      have hP : PEOPLE_NB = 11 := rfl
      have hM : MAX_REQUEST = 11 := rfl
      rw [hP] at ih2 ⊢
      by_cases hb2 : btn = 2
      · subst hb2
        rw [ctrlStep_counting_long stream fuel c now hcs] at heq
        obtain rfl := Option.some.inj heq
        rw [enterState_state] at h'
        exact absurd h' (by decide)
      · by_cases hb1 : btn = 1
        · subst hb1
          rw [ctrlStep_counting_press_any stream fuel c now hcs] at heq
          obtain rfl := Option.some.inj heq
          have hproj : ({ renderIdleStep c now with
              requestedCount :=
                if c.requestedCount < MAX_REQUEST then c.requestedCount + 1
                else c.requestedCount,
              countWindowEnds := now + COUNT_WINDOW_MS } :
                Ctrl).requestedCount =
              if c.requestedCount < MAX_REQUEST then c.requestedCount + 1
              else c.requestedCount := rfl
          rw [hproj, hM]
          split <;> omega
        · by_cases hex : sub32 now c.countWindowEnds < INT32_HALF
          · obtain ⟨c'', heq2, hst⟩ := ctrlStep_counting_other_expired
              stream fuel c now btn hcs hb2 hb1 hex
            rw [heq2] at heq
            obtain rfl := Option.some.inj heq
            exact absurd (hst.symm.trans h') (by decide)
          · rw [ctrlStep_counting_other_quiet stream fuel c now btn hcs
              hb2 hb1 hex] at heq
            obtain rfl := Option.some.inj heq
            simpa using ⟨ih1, ih2⟩
    | ANIMATING =>
      simp only [ctrlStep, hcs] at heq
      split at heq
      · obtain rfl := Option.some.inj heq
        rw [enterState_state] at h'
        exact absurd h' (by decide)
      · split at heq
        · split at heq
          · exact absurd heq (by simp)
          · obtain rfl := Option.some.inj heq
            rw [enterState_state] at h'
            exact absurd h' (by decide)
        · obtain rfl := Option.some.inj heq
          rw [renderAnimStep_state, hcs] at h'
          exact absurd h' (by decide)
    | SHOW =>
      simp only [ctrlStep, hcs] at heq
      split at heq
      · obtain rfl := Option.some.inj heq
        rw [enterState_state] at h'
        exact absurd h' (by decide)
      · split at heq
        · obtain rfl := Option.some.inj heq
          rw [enterState_state] at h'
          exact absurd h' (by decide)
        · obtain rfl := Option.some.inj heq
          rw [hcs] at h'
          exact absurd h' (by decide)

/-- Witness for `counting_count_invariant` at the reachable `COUNTING`
state `countingDemo` (one short press at time 5 from `initCtrl`). -/
theorem counting_count_invariant_witness :
    1 ≤ countingDemo.requestedCount ∧
      countingDemo.requestedCount ≤ PEOPLE_NB :=
  counting_count_invariant countingDemo
    (Reachable.step (fun _ => 0) 0 initCtrl countingDemo 1 5
      Reachable.init (by decide))
    rfl

theorem MAX_SEL_eq : MAX_SEL = 32 := rfl

theorem clampSelCount_le (r : Nat) : clampSelCount r ≤ PEOPLE_NB := by
  simp only [clampSelCount, PEOPLE_NB_eq, MAX_SEL_eq]
  split <;> split <;> omega

/-- C10: at every `ANIMATING` to `SHOW` transition, the freshly drawn
selection has at most `min PEOPLE_NB MAX_SEL` entries (so the writes
into the `MAX_SEL`-slot `selectedIdx` array stay in bounds) and every
entry lies in `[0, PEOPLE_NB)` (so the `UsedLEDs[selectedIdx[i]]` reads
of `renderShowSelection` stay in bounds). -/
theorem show_selection_bounds (stream : Nat → Nat) (fuel : Nat)
    (c c' : Ctrl) (btn now : Nat)
    (hA : c.state = MState.ANIMATING)
    (hstep : ctrlStep stream fuel c btn now = some c')
    (hS : c'.state = MState.SHOW) :
    c'.selected.length ≤ min PEOPLE_NB MAX_SEL ∧
      ∀ x ∈ c'.selected, x < PEOPLE_NB := by
  simp only [ctrlStep, hA] at hstep
  split at hstep
  · obtain rfl := Option.some.inj hstep
    rw [enterState_state] at hS
    exact absurd hS (by decide)
  · split at hstep
    · split at hstep
      · exact absurd hstep (by simp)
      · rename_i sel hpick
        obtain rfl := Option.some.inj hstep
        obtain ⟨hlen, hnd, hbd⟩ := pickLoop_sound stream _ fuel 0 [] sel
          (by simp) (by simp) (by simp) hpick
        constructor
        · show sel.length ≤ min PEOPLE_NB MAX_SEL
          rw [hlen, show min PEOPLE_NB MAX_SEL = PEOPLE_NB from by decide]
          exact clampSelCount_le _
        · show ∀ x ∈ sel, x < PEOPLE_NB
          exact hbd
    · obtain rfl := Option.some.inj hstep
      rw [renderAnimStep_state, hA] at hS
      exact absurd hS (by decide)

/-- Concrete `SHOW` state produced from `animDemo` by the expiry tick at
time 1800 with the identity stream. -/
def showDemo : Ctrl :=
  { state := MState.SHOW, stateEnterMs := 1800, requestedCount := 3,
    countWindowEnds := 0, selected := [0, 1, 2], rainbowOffset := 0,
    lastIdleStep := 0, lastAnimStep := 1800 }

/-- Witness for `show_selection_bounds` on the transition from
`animDemo` to `showDemo`. -/
theorem show_selection_bounds_witness :
    showDemo.selected.length ≤ min PEOPLE_NB MAX_SEL ∧
      ∀ x ∈ showDemo.selected, x < PEOPLE_NB :=
  show_selection_bounds (fun i => i) 10 animDemo showDemo 0 1800
    rfl (by decide) rfl

/-! ### Show frame (C8) -/

theorem usedLEDs_lt (i : Nat) (hi : i < PEOPLE_NB) :
    UsedLEDs.getD i 0 < NUM_LEDS := by
  revert hi
  revert i
  decide

theorem renderShow_foldl (sel : List Nat) :
    ∀ (pix : Frame) (led : Nat), (∀ x ∈ sel, x < PEOPLE_NB) →
      (sel.foldl
        (fun p idx => setPixelColor p (UsedLEDs.getD idx 0)
          (255, 255, 255)) pix) led =
        if ∃ i ∈ sel, UsedLEDs.getD i 0 = led then (255, 255, 255)
        else pix led := by
  induction sel with
  | nil => intro pix led _; simp
  | cons a rest ih =>
    intro pix led hb
    simp only [List.foldl_cons]
    rw [ih _ led (fun x hx => hb x (List.mem_cons_of_mem a hx))]
    by_cases hmem : ∃ i ∈ rest, UsedLEDs.getD i 0 = led
    · obtain ⟨i, hi, he⟩ := hmem
      rw [if_pos ⟨i, hi, he⟩, if_pos ⟨i, List.mem_cons_of_mem a hi, he⟩]
    · rw [if_neg hmem]
      unfold setPixelColor
      by_cases hled : led = UsedLEDs.getD a 0
      · have hlt : UsedLEDs.getD a 0 < NUM_LEDS :=
          usedLEDs_lt a (hb a (List.mem_cons_self a rest))
        rw [if_pos ⟨hled, hlt⟩,
          if_pos ⟨a, List.mem_cons_self a rest, hled.symm⟩]
      · rw [if_neg (fun h => hled h.1), if_neg ?_]
        rintro ⟨i, hi, he⟩
        rcases List.mem_cons.mp hi with rfl | hi2
        · exact hled he.symm
        · exact hmem ⟨i, hi2, he⟩

/-- C8: the show frame clears every physical LED and then paints pure
white exactly at the positions `UsedLEDs` maps from the selected
indices; every other LED stays off `(0, 0, 0)`. -/
theorem renderShowSelection_spec (sel : List Nat)
    (hsel : ∀ x ∈ sel, x < PEOPLE_NB) (led : Nat) :
    renderShowSelection sel led =
      if ∃ i ∈ sel, UsedLEDs.getD i 0 = led then (255, 255, 255)
      else (0, 0, 0) := by
  unfold renderShowSelection
  rw [renderShow_foldl sel stripClear led hsel]
  rfl

/-- Witness for `renderShowSelection_spec` with selection `{2, 5}`: the
mapped LED 4 (of index 2) is white and LED 0 is off. -/
theorem renderShowSelection_spec_witness :
    renderShowSelection [2, 5] 4 = (255, 255, 255) ∧
      renderShowSelection [2, 5] 0 = (0, 0, 0) :=
  ⟨(renderShowSelection_spec [2, 5] (by decide) 4).trans (by decide),
   (renderShowSelection_spec [2, 5] (by decide) 0).trans (by decide)⟩

end Trombinoscope
